import Mathlib

/-!
Verification of the kernel/expression synthesis and backend-selection core of
`vsrgtools` against its specification. The definitions below are a shallow
embedding of `src/vsrgtools/blur.py`: the per-pixel expression programs that
blur.py hands to the expression engine are translated token for token into a
small stack machine, and each public operator's dispatch logic (capability
checks, radius handling, error raising) is translated into a function from its
inputs to an explicit description of the execution plan it selects.
-/

namespace VSRGTools

/-- ConvMode enumeration (vstools, spec §3): which axes a kernel or operation
applies to. -/
inductive ConvMode
  | hv
  | horizontal
  | vertical
  | square
deriving DecidableEq

/-- RadiusSpec (spec §3): either a scalar radius applying uniformly to all
selected planes, or a per-plane list. -/
inductive RadiusSpec
  | scalar (r : Nat)
  | perPlane (rs : List Nat)
deriving DecidableEq

/-- Sigma argument of gauss_blur: a scalar or a per-plane list. -/
inductive SigmaSpec
  | scalar (s : ℚ)
  | perPlane (ss : List ℚ)
deriving DecidableEq

/-- Pixel-format metadata consulted by blur.py: sample type (float or integer)
and bits per sample. -/
structure PixelFormat where
  sampleFloat : Bool
  bits : Nat
deriving DecidableEq

/-- CapabilitySet (spec §3/§4.3): run-time presence of the optional accelerated
backends, probed in blur.py with `hasattr(core, ...)` and with vsexprtools'
`complexpr_available`. -/
structure CapabilitySet where
  hasVszip : Bool
  hasResize2 : Bool
  hasExprEngine : Bool
  hasBilateralGpuRtc : Bool
deriving DecidableEq

/-- Operators that can appear as the offending function of a raised error. -/
inductive OpName
  | fluxSmooth
deriving DecidableEq

/-- Errors raised by the embedded code paths. `nameErrorCustomRuntimeError`
models the fact that gauss_blur line 159 executes `raise CustomRuntimeError(...)`
while blur.py's vstools import list (lines 9-12) binds only `CustomIndexError`
and no definition of `CustomRuntimeError` is in scope, so the Python runtime
raises a NameError at that statement. `customIndexError` carries the offending
operator and the invalid value, as `CustomIndexError(msg, func, reason=value)`
does. -/
inductive RaisedError
  | nameErrorCustomRuntimeError
  | customIndexError (offendingOp : OpName) (reason : Int)
deriving DecidableEq

/-! ## The per-pixel expression stack machine

blur.py compiles its non-native paths to VapourSynth/akarin expression strings
evaluated per pixel on a value stack with named registers. The machine below
implements exactly the instruction subset those strings use. -/

/-- Register names used by blur.py's expression strings: `D1!`/`D2!` in the
min_blur and sbr merge expressions, `min!`/`max!` in the median_blur program. -/
inductive Reg
  | d1
  | d2
  | rlo
  | rhi
deriving DecidableEq

/-- Register file. The programs in this file write every register before reading
it; unwritten registers hold 0. -/
structure Regs where
  d1 : Int
  d2 : Int
  rlo : Int
  rhi : Int
deriving DecidableEq

/-- Initial register file. -/
def Regs.init : Regs := ⟨0, 0, 0, 0⟩

/-- Write a register. -/
def Regs.setReg (rs : Regs) : Reg → Int → Regs
  | .d1, v => { rs with d1 := v }
  | .d2, v => { rs with d2 := v }
  | .rlo, v => { rs with rlo := v }
  | .rhi, v => { rs with rhi := v }

/-- Read a register. -/
def Regs.getReg (rs : Regs) : Reg → Int
  | .d1 => rs.d1
  | .d2 => rs.d2
  | .rlo => rs.rlo
  | .rhi => rs.rhi

/-- Instruction set: the expression tokens appearing in blur.py's programs.
`pushX`/`pushY`/`pushZ` load the current pixel of the first/second/third input
clip, `pushNeutral` the format's neutral value, `pushVal` a neighborhood pixel
pushed by a relative-offset access. -/
inductive ExprTok
  | pushX
  | pushY
  | pushZ
  | pushNeutral
  | pushVal (v : Int)
  | subOp
  | addOp
  | absOp
  | ltOp
  | xorOp
  | ternaryOp
  | storeReg (r : Reg)
  | loadReg (r : Reg)
  | sortOp (n : Nat)
  | swapOp (n : Nat)
  | dropOp (n : Nat)
  | clipOp
deriving DecidableEq

/-- Input environment of one per-pixel evaluation: the pixels `x`, `y`, `z` of
the participating clips at the current position, and the format neutral value. -/
structure ExprEnv where
  x : Int
  y : Int
  z : Int
  neutral : Int
deriving DecidableEq

/-- Machine state: value stack (head is top) plus registers. -/
structure MState where
  stack : List Int
  regs : Regs
deriving DecidableEq

/-- akarin `clip`: clamp `v` to the interval `[lo, hi]`. -/
def clampPix (v lo hi : Int) : Int :=
  if v < lo then lo else if hi < v then hi else v

/-- akarin `swapN`: exchange the top of the stack with the element `n` positions
below it (`swap0` is a no-op). -/
def swapStack : List Int → Nat → List Int
  | l, 0 => l
  | [], _ + 1 => []
  | a :: rest, n + 1 => rest.getD n 0 :: rest.set n a

/-- Small-step semantics of one expression token, following the VapourSynth/
akarin expression engine (spec §4.2/§6): comparisons and `xor` produce 1 or 0, a
value is treated as true iff it is greater than 0, `xor` is the logical xor of
the two truth values, `?` is `cond tval fval ?`, `sortN` sorts the top `N` stack
values leaving the smallest on top, and `clip` clamps. Stack underflow (which
the engine rejects when compiling a program) yields `none`. -/
def applyTok (env : ExprEnv) (s : MState) : ExprTok → Option MState
  | .pushX => some { s with stack := env.x :: s.stack }
  | .pushY => some { s with stack := env.y :: s.stack }
  | .pushZ => some { s with stack := env.z :: s.stack }
  | .pushNeutral => some { s with stack := env.neutral :: s.stack }
  | .pushVal v => some { s with stack := v :: s.stack }
  | .subOp =>
    match s.stack with
    | b :: a :: rest => some { s with stack := (a - b) :: rest }
    | _ => none
  | .addOp =>
    match s.stack with
    | b :: a :: rest => some { s with stack := (a + b) :: rest }
    | _ => none
  | .absOp =>
    match s.stack with
    | a :: rest => some { s with stack := |a| :: rest }
    | _ => none
  | .ltOp =>
    match s.stack with
    | b :: a :: rest => some { s with stack := (if a < b then 1 else 0) :: rest }
    | _ => none
  | .xorOp =>
    match s.stack with
    | b :: a :: rest => some { s with stack := (if (0 < a) ↔ (0 < b) then 0 else 1) :: rest }
    | _ => none
  | .ternaryOp =>
    match s.stack with
    | f :: t :: c :: rest => some { s with stack := (if 0 < c then t else f) :: rest }
    | _ => none
  | .storeReg r =>
    match s.stack with
    | a :: rest => some { stack := rest, regs := s.regs.setReg r a }
    | _ => none
  | .loadReg r => some { s with stack := s.regs.getReg r :: s.stack }
  | .sortOp n =>
    if n ≤ s.stack.length then
      some { s with stack := List.insertionSort (· ≤ ·) (s.stack.take n) ++ s.stack.drop n }
    else none
  | .swapOp n =>
    if n < s.stack.length then some { s with stack := swapStack s.stack n } else none
  | .dropOp n =>
    if n ≤ s.stack.length then some { s with stack := s.stack.drop n } else none
  | .clipOp =>
    match s.stack with
    | hi :: lo :: v :: rest => some { s with stack := clampPix v lo hi :: rest }
    | _ => none

/-- Run a token sequence from a machine state. -/
def runProg (env : ExprEnv) : List ExprTok → MState → Option MState
  | [], s => some s
  | t :: ts, s =>
    match applyTok env s t with
    | some s2 => runProg env ts s2
    | none => none

/-- Evaluate a whole program on an empty stack and return the output pixel, the
final top of stack. -/
def evalProg (env : ExprEnv) (prog : List ExprTok) : Option Int :=
  match runProg env prog { stack := [], regs := Regs.init } with
  | some s => s.stack.head?
  | none => none

/-! ## The expression programs of blur.py -/

/-- Token-for-token translation of the min_blur agreement-merge expression
`x y - D1! x z - D2! D1@ D2@ xor x D1@ abs D2@ abs < y z ? ?`
(src/vsrgtools/blur.py line 208), where `x` is the original clip, `y` the
binomial blur and `z` the median blur. -/
def minBlurMergeProg : List ExprTok :=
  [.pushX, .pushY, .subOp, .storeReg .d1,
   .pushX, .pushZ, .subOp, .storeReg .d2,
   .loadReg .d1, .loadReg .d2, .xorOp,
   .pushX,
   .loadReg .d1, .absOp, .loadReg .d2, .absOp, .ltOp,
   .pushY, .pushZ, .ternaryOp, .ternaryOp]

/-- Token-for-token translation of the sbr agreement-merge expression
`x y - D1! x neutral - D2! D1@ D2@ xor neutral D1@ abs D2@ abs < D1@ neutral + x ? ?`
(src/vsrgtools/blur.py line 230), where `x` is the residual `diff` and `y` the
re-blurred residual `blurred_diff`. -/
def sbrMergeProg : List ExprTok :=
  [.pushX, .pushY, .subOp, .storeReg .d1,
   .pushX, .pushNeutral, .subOp, .storeReg .d2,
   .loadReg .d1, .loadReg .d2, .xorOp,
   .pushNeutral,
   .loadReg .d1, .absOp, .loadReg .d2, .absOp, .ltOp,
   .loadReg .d1, .pushNeutral, .addOp,
   .pushX, .ternaryOp, .ternaryOp]

/-- Per-pixel value of min_blur's merge for original `x`, binomial candidate `a`
and median candidate `b`. -/
def evalMinBlurMerge (x a b : Int) : Option Int :=
  evalProg { x := x, y := a, z := b, neutral := 0 } minBlurMergeProg

/-- Per-pixel value of sbr's merge for residual `d`, re-blurred residual `bd`
and format neutral value `n`. -/
def evalSbrMerge (d bd n : Int) : Option Int :=
  evalProg { x := d, y := bd, z := 0, neutral := n } sbrMergeProg

/-- Sorting-network program generated by median_blur's `_get_vals`
(src/vsrgtools/blur.py lines 243-254) for a neighborhood `ns`: the pixels pushed
by `ExprOp.matrix('x', radius, mode, [(0, 0)])`, i.e. the neighborhood excluding
the center. The program is
`{matrix} sort{st} swap{sp} min! swap{sp} max! drop{dp} x min@ max@ clip` with
`rb = len(matrix) + 1`, `st = rb - 1`, `sp = rb // 2 - 1`, `dp = st - 2`. -/
def medianBlurProg (ns : List Int) : List ExprTok :=
  ns.map .pushVal ++
    [.sortOp ((ns.length + 1) - 1),
     .swapOp ((ns.length + 1) / 2 - 1), .storeReg .rlo,
     .swapOp ((ns.length + 1) / 2 - 1), .storeReg .rhi,
     .dropOp (((ns.length + 1) - 1) - 2),
     .pushX, .loadReg .rlo, .loadReg .rhi, .clipOp]

/-- Per-pixel value of the compiled median program at original pixel `x` with
neighborhood `ns`. -/
def evalMedianBlur (x : Int) (ns : List Int) : Option Int :=
  evalProg { x := x, y := 0, z := 0, neutral := 0 } (medianBlurProg ns)

/-! ## Operator dispatch embeddings -/

/-- Execution plans selectable by box_blur. -/
inductive BoxBlurResult
  | normalizeRadius (rs : List Nat)
  | identity
  | vszipBoxBlur (hradius hpasses vradius vpasses : Nat)
  | stdBoxBlur (hradius hpasses vradius vpasses : Nat)
  | meanExprBlur (radius passes : Nat)
deriving DecidableEq

/-- box_blur (src/vsrgtools/blur.py lines 26-55): a radius list goes to
`normalize_radius`; radius 0 returns the clip unchanged; otherwise
`vszip.BoxBlur` if present, else `std.BoxBlur` when `radius > 12` and the format
is not 16-bit float, else the `BlurMatrix.MEAN` expression convolution. The
per-axis pass counts mirror `box_args` (lines 41-45). -/
def box_blur (fmt : PixelFormat) (radius : RadiusSpec) (passes : Nat) (mode : ConvMode)
    (caps : CapabilitySet) : BoxBlurResult :=
  match radius with
  | .perPlane rs => .normalizeRadius rs
  | .scalar r =>
    if r = 0 then .identity
    else
      if caps.hasVszip then
        .vszipBoxBlur r (if mode = ConvMode.vertical then 0 else passes)
          r (if mode = ConvMode.horizontal then 0 else passes)
      else if 12 < r ∧ ¬(fmt.sampleFloat ∧ fmt.bits = 16) then
        .stdBoxBlur r (if mode = ConvMode.vertical then 0 else passes)
          r (if mode = ConvMode.horizontal then 0 else passes)
      else .meanExprBlur r passes

/-- Execution plans selectable by side_box_blur's radius dispatch. -/
inductive SideBoxResult
  | normalizeRadius (rs : List Nat)
  | composed (r : Nat)
deriving DecidableEq

/-- side_box_blur radius dispatch (src/vsrgtools/blur.py lines 58-65): a
per-plane radius list is routed through `normalize_radius`; the directional
half-kernel composition itself (lines 67-126) is summarized as `.composed`. -/
def side_box_blur (radius : RadiusSpec) : SideBoxResult :=
  match radius with
  | .perPlane rs => .normalizeRadius rs
  | .scalar r => .composed r

/-- Execution plans selectable by gauss_blur. -/
inductive GaussBlurResult
  | normalizeSigma (ss : List ℚ)
  | kernelApply (kernelLen : Nat)
  | raised (e : RaisedError)
  | exprConvolution (kernelLen : Nat)
  | resize2Scale
deriving DecidableEq

/-- gauss_blur dispatch (src/vsrgtools/blur.py lines 129-184). `kernelLen` stands
for `len(kernel)` of the Gaussian kernel built by the external
`BlurMatrix.GAUSS` (vsrgtools/enum.py, outside src/) from the sigma-derived tap
count, after the sigma clamping of lines 140-144. A sigma list goes to
`normalize_radius`; a kernel of at most 25 taps is applied directly; with more
taps and no resize2, the absence of the expression engine executes
`raise CustomRuntimeError(...)` (line 159) whose name is unbound in blur.py, so
a NameError is raised; with the expression engine present the kernel is applied
as one expression convolution per axis; with resize2 present the scaling engine
is used. -/
def gauss_blur (sigma : SigmaSpec) (kernelLen : Nat) (caps : CapabilitySet) : GaussBlurResult :=
  match sigma with
  | .perPlane ss => .normalizeSigma ss
  | .scalar _ =>
    if kernelLen ≤ 25 then .kernelApply kernelLen
    else if ¬ caps.hasResize2 then
      if ¬ caps.hasExprEngine then .raised .nameErrorCustomRuntimeError
      else .exprConvolution kernelLen
    else .resize2Scale

/-- Execution plans selectable by min_blur. -/
inductive MinBlurResult
  | normalizeRadius (rs : List Nat)
  | merged (r : Nat) (mergeProg : List ExprTok)
deriving DecidableEq

/-- min_blur (src/vsrgtools/blur.py lines 187-210): a radius list goes through
`normalize_radius`; a scalar radius builds the binomial blur `y` and the median
blur `z` and merges them with the agreement expression `minBlurMergeProg`. -/
def min_blur (radius : RadiusSpec) : MinBlurResult :=
  match radius with
  | .perPlane rs => .normalizeRadius rs
  | .scalar r => .merged r minBlurMergeProg

/-- Execution plans of sbr. The `.normalizeRadius` alternative is never produced
by `sbr` below; it exists so that theorems can state that fact. -/
inductive SbrResult
  | normalizeRadius (rs : List Nat)
  | plan (binomialRadius : RadiusSpec) (mergeProg : List ExprTok)
deriving DecidableEq

/-- sbr (src/vsrgtools/blur.py lines 213-234). Unlike box_blur, side_box_blur,
gauss_blur and min_blur, sbr performs no `isinstance(radius, list)` dispatch:
whatever radius it receives, scalar or list, is passed verbatim to
`BlurMatrix.BINOMIAL(radius=radius, mode=mode)` (line 221), and the residual is
limited with the agreement expression `sbrMergeProg`. -/
def sbr (radius : RadiusSpec) : SbrResult := .plan radius sbrMergeProg

/-- Whether an sbr invocation was routed through the RadiusNormalizer. -/
def SbrResult.viaNormalizer : SbrResult → Bool
  | .normalizeRadius _ => true
  | .plan _ _ => false

/-- Execution plans selectable by median_blur. -/
inductive MedianBlurResult
  | nativeMedian
  | sortNetworkExprs (radii : List Nat)
deriving DecidableEq

/-- vstools `to_arr`: wrap a scalar into a one-element list, keep a list. -/
def toArr : RadiusSpec → List Nat
  | .scalar r => [r]
  | .perPlane rs => rs

/-- median_blur (src/vsrgtools/blur.py lines 237-255): a scalar radius 1 with
mode HV or SQUARE dispatches to the native `std.Median`; every other
radius/mode configuration compiles one sorting-network expression
(`medianBlurProg`) per radius in `to_arr(radius)`, applied plane-wise. -/
def median_blur (radius : RadiusSpec) (mode : ConvMode) : MedianBlurResult :=
  if radius = .scalar 1 ∧ (mode = ConvMode.hv ∨ mode = ConvMode.square) then .nativeMedian
  else .sortNetworkExprs (toArr radius)

/-- Modelled from the spec: the native `std.Median` primitive is an external
collaborator (spec §6, §4.5 "degenerates to a direct 3×3 median"); it replaces
each pixel by the direct median of its 3×3 neighborhood, center included. Here
`vals` are the nine neighborhood values and the median is the middle element of
their sorted order. -/
def directMedian (vals : List Int) : Int :=
  (List.insertionSort (· ≤ ·) vals).getD (vals.length / 2) 0

/-- Backend invocations selectable by bilateral, with the bit depth each native
primitive is invoked at, and for the CPU path also the depth restored on
return. -/
inductive BilateralResult
  | gpuRtc (invokedBits : Nat)
  | gpuBasic (invokedBits : Nat)
  | cpuVszip (invokedBits restoredBits : Nat)
deriving DecidableEq

/-- bilateral backend dispatch (src/vsrgtools/blur.py lines 258-285): any `gpu`
other than an explicit `False` (the default `None` included) selects the GPU
paths, RTC variant first when present, with the clip passed to the native
primitive at its original depth; only the `gpu=False` CPU path lowers a clip of
more than 16 bits to 16 bits before `vszip.Bilateral` (lines 277-283) and
restores the original depth afterwards (line 285). -/
def bilateral (gpu : Option Bool) (caps : CapabilitySet) (bits : Nat) : BilateralResult :=
  if gpu ≠ some false then
    if caps.hasBilateralGpuRtc then .gpuRtc bits else .gpuBasic bits
  else
    .cpuVszip (if 16 < bits then 16 else bits) bits

/-- Arguments of the native temporal primitives invoked by flux_smooth: the
`tmedian.TemporalMedian` radius and the `focus2.TemporalSoften2` radius, luma
threshold, chroma threshold and scenechange; the two results are then merged by
`limit_filter` in `DIFF_MIN` mode. -/
structure FluxPlan where
  tmedianRadius : Int
  softenRadius : Int
  softenThreshold : Nat
  softenCThreshold : Nat
  softenScenechange : Int
deriving DecidableEq

/-- Outcome of a flux_smooth invocation. -/
inductive FluxResult
  | raised (e : RaisedError)
  | plan (p : FluxPlan)
deriving DecidableEq

/-- flux_smooth (src/vsrgtools/blur.py lines 288-306): a radius outside [1, 7]
raises `CustomIndexError('Radius must be between 1 and 7 (inclusive)!',
flux_smooth, reason=radius)` before planes are normalized or any backend is
touched; otherwise the caller's 8-bit threshold is left-shifted by
`bits_per_sample - 8`, the chroma threshold is that shifted threshold when plane
1 or plane 2 is selected and 0 otherwise, and the temporal-median /
temporal-soften / limit_filter plan is returned. -/
def flux_smooth (radius : Int) (threshold : Nat) (scenechange : Int) (bits : Nat)
    (planes : List Nat) : FluxResult :=
  if radius < 1 ∨ 7 < radius then .raised (.customIndexError .fluxSmooth radius)
  else
    .plan ⟨radius, radius, threshold <<< (bits - 8),
      if planes.contains 1 || planes.contains 2 then threshold <<< (bits - 8) else 0,
      scenechange⟩

/-- Modelled from the spec: `normalize_radius` (the RadiusNormalizer, spec §2
item 6 and §4.5) is imported from `vsrgtools/util.py`, which is not under src/.
Per the spec it "invokes the scalar-radius operator once per distinct
plane-radius group and recombines plane outputs; it must preserve plane order
and must not blur planes outside the group's selection". A frame is modelled as
its list of planes; `op r frame sel` is the scalar-radius operator applied with
radius `r` to the planes selected by `sel`. Every selected plane `i` receives
plane `i` of the invocation for its radius group, the group being all selected
planes sharing the radius `radii[i]`; unselected planes pass through
unchanged. -/
def normalize_radius {α : Type} (op : Nat → List α → List Nat → List α)
    (frame : List α) (radii : List Nat) (planes : List Nat) : List α :=
  frame.mapIdx fun i p =>
    if planes.contains i then
      (op (radii.getD i 0) frame (planes.filter fun j => radii.getD j 0 == radii.getD i 0)).getD i p
    else p

/-! ## Theorems -/

/-- C1 (amended). The agreement merge used by min_blur (original `x`, binomial
candidate `a = y`, median candidate `b = z`) returns `a` when `x - a` and
`x - b` agree in truth value of being positive and `|x - a| < |x - b|`, returns
`b` when they agree and `|x - b| ≤ |x - a|`, and in the sign-disagreement case
returns the original `x` — not the second candidate `b`. The sbr merge has the
same structure on the residual `d` and its re-blur `bd`, with the neutral value
taking the place of the arbiter: agreement with `|d - bd| < |d - n|` gives
`(d - bd) + n`, agreement otherwise gives `d`, and sign disagreement gives
`neutral`. min_blur and sbr install exactly these programs. -/
theorem minblur_sbr_agreement_merge :
    (∀ x a b : Int,
      evalMinBlurMerge x a b =
        some (if (0 < x - a) ↔ (0 < x - b) then (if |x - a| < |x - b| then a else b) else x)) ∧
    (∀ d bd n : Int,
      evalSbrMerge d bd n =
        some (if (0 < d - bd) ↔ (0 < d - n) then (if |d - bd| < |d - n| then d - bd + n else d)
          else n)) ∧
    (∀ r : Nat, min_blur (.scalar r) = .merged r minBlurMergeProg) ∧
    (∀ radius : RadiusSpec, sbr radius = .plan radius sbrMergeProg) := by
  refine ⟨?_, ?_, fun r => rfl, fun radius => rfl⟩
  · intro x a b
    simp only [evalMinBlurMerge, evalProg, minBlurMergeProg, runProg, applyTok,
      Regs.setReg, Regs.getReg, Regs.init, List.head?]
    by_cases h1 : (a < x) ↔ (b < x) <;> by_cases h2 : |x - a| < |x - b| <;>
      simp [h1, h2, sub_pos]
  · intro d bd n
    simp only [evalSbrMerge, evalProg, sbrMergeProg, runProg, applyTok,
      Regs.setReg, Regs.getReg, Regs.init, List.head?]
    by_cases h1 : (bd < d) ↔ (n < d) <;> by_cases h2 : |d - bd| < |d - n| <;>
      simp [h1, h2, sub_pos]

/-- C1 counterexample. At `x = 10`, `a = 12`, `b = 8` the differences
`x - a = -2` and `x - b = 2` disagree in sign, and the min_blur merge returns
the original `x = 10` — not the second candidate `b = 8` that the claim's
sign-disagreement branch requires. -/
theorem minblur_merge_disagreement_counterexample :
    evalMinBlurMerge 10 12 8 = some 10 ∧ evalMinBlurMerge 10 12 8 ≠ some 8 := by
  exact ⟨by decide, by decide⟩

/-- C2 (code bug). With a derived kernel of 27 taps (more than 25) and neither
the scaling engine (resize2) nor the expression engine available, gauss_blur
does fail synchronously instead of falling back to a truncated kernel — but the
failure is a NameError, not a MissingCapabilityError-style error naming the
problem: line 159 executes `raise CustomRuntimeError(...)`, and blur.py never
imports or defines `CustomRuntimeError`. -/
theorem gauss_blur_no_backend_raises_name_error :
    ∀ (s : ℚ) (hasVszip hasRtc : Bool),
      gauss_blur (.scalar s) 27 ⟨hasVszip, false, false, hasRtc⟩ =
        .raised .nameErrorCustomRuntimeError := by
  intro s hasVszip hasRtc
  rfl

/-- C3 (amended). Depth handling in bilateral is asymmetric across the three
backend paths: only the CPU native path (`gpu=False`) lowers the clip to
`min(bits, 16)` before invoking `vszip.Bilateral` and restores the original
depth afterwards; the GPU-RTC and GPU paths (selected whenever `gpu` is not
exactly `False`, the default `None` included) invoke the native primitive at
the clip's original bit depth with no down-conversion and no restoration. -/
theorem bilateral_depth_normalization :
    ∀ (caps : CapabilitySet) (bits : Nat),
      bilateral (some false) caps bits = .cpuVszip (min bits 16) bits ∧
      bilateral none caps bits =
        (if caps.hasBilateralGpuRtc then .gpuRtc bits else .gpuBasic bits) ∧
      bilateral (some true) caps bits =
        (if caps.hasBilateralGpuRtc then .gpuRtc bits else .gpuBasic bits) := by
  intro caps bits
  have hmin : (if 16 < bits then 16 else bits) = min bits 16 := by
    split <;> omega
  refine ⟨?_, ?_, ?_⟩ <;> simp [bilateral, hmin]

/-- C3 counterexample. A 32-bit clip on the GPU-RTC backend path is handed to
the native primitive at its original 32-bit depth: no down-conversion to a
supported depth happens before the invocation and no restoration after it,
contradicting the claim that all three backend paths normalize depth. -/
theorem bilateral_gpu_rtc_counterexample :
    bilateral none ⟨true, true, true, true⟩ 32 = .gpuRtc 32 := by
  decide

/-- C5. box_blur backend selection for every scalar radius greater than 0
follows the strict priority chain: the native accelerated primitive
(`vszip.BoxBlur`) when available; otherwise the mean-kernel expression
convolution when the radius is at most 12 or the format is 16-bit float;
otherwise the legacy native separable primitive (`std.BoxBlur`). -/
theorem box_blur_backend_chain :
    ∀ (fmt : PixelFormat) (r passes : Nat) (mode : ConvMode) (caps : CapabilitySet),
      0 < r →
      box_blur fmt (.scalar r) passes mode caps =
        (if caps.hasVszip then
          .vszipBoxBlur r (if mode = ConvMode.vertical then 0 else passes)
            r (if mode = ConvMode.horizontal then 0 else passes)
        else if r ≤ 12 ∨ (fmt.sampleFloat ∧ fmt.bits = 16) then .meanExprBlur r passes
        else
          .stdBoxBlur r (if mode = ConvMode.vertical then 0 else passes)
            r (if mode = ConvMode.horizontal then 0 else passes)) := by
  intro fmt r passes mode caps h
  have h0 : ¬ r = 0 := by omega
  by_cases hv : caps.hasVszip
  · simp [box_blur, h0, hv]
  · by_cases hc : 12 < r ∧ ¬(fmt.sampleFloat ∧ fmt.bits = 16)
    · have hnle : ¬ r ≤ 12 := by omega
      simp [box_blur, h0, hv, hc, hnle, hc.2]
    · have hor : r ≤ 12 ∨ (fmt.sampleFloat ∧ fmt.bits = 16) := by
        rcases not_and_or.mp hc with h1 | h2
        · left; omega
        · right; exact not_not.mp h2
      simp [box_blur, h0, hv, hc, hor]
      intro h12
      rcases hor with h | h
      · omega
      · exact h

/-- C5 witness: with no vszip, an 8-bit integer format and radius 13 the chain
reaches the legacy native separable primitive. -/
theorem box_blur_backend_chain_witness :
    box_blur ⟨false, 8⟩ (.scalar 13) 2 ConvMode.hv ⟨false, true, true, true⟩ =
      .stdBoxBlur 13 2 13 2 := by
  exact (box_blur_backend_chain ⟨false, 8⟩ 13 2 ConvMode.hv ⟨false, true, true, true⟩
    (by decide)).trans (by decide)

/-- C9. box_blur with scalar radius 0 returns the input clip unchanged for every
pixel format, pass count, mode and capability set: no backend is selected and
nothing is blurred. -/
theorem box_blur_radius_zero_identity :
    ∀ (fmt : PixelFormat) (passes : Nat) (mode : ConvMode) (caps : CapabilitySet),
      box_blur fmt (.scalar 0) passes mode caps = .identity := by
  intro fmt passes mode caps
  rfl

/-- C4 (amended). Per-plane list requests are routed through the radius
normalizer by box_blur, side_box_blur, gauss_blur and min_blur only; sbr
forwards a radius list verbatim to the binomial kernel builder without any
normalizer dispatch, and median_blur expands the list inline into one
sorting-network expression per listed radius. The spec-modelled
`normalize_radius` preserves the number and order of planes, leaves every plane
outside the selection untouched, gives each selected plane the output of the
scalar-radius operator invoked for its radius group at that plane's position,
and uses one and the same invocation (identical group selection) for all
selected planes sharing a radius. -/
theorem radius_list_dispatch :
    (∀ (fmt : PixelFormat) (rs : List Nat) (passes : Nat) (mode : ConvMode)
      (caps : CapabilitySet),
      box_blur fmt (.perPlane rs) passes mode caps = .normalizeRadius rs) ∧
    (∀ rs : List Nat, side_box_blur (.perPlane rs) = .normalizeRadius rs) ∧
    (∀ (ss : List ℚ) (kernelLen : Nat) (caps : CapabilitySet),
      gauss_blur (.perPlane ss) kernelLen caps = .normalizeSigma ss) ∧
    (∀ rs : List Nat, min_blur (.perPlane rs) = .normalizeRadius rs) ∧
    (∀ rs : List Nat, (sbr (.perPlane rs)).viaNormalizer = false) ∧
    (∀ (rs : List Nat) (mode : ConvMode),
      median_blur (.perPlane rs) mode = .sortNetworkExprs rs) ∧
    (∀ (op : Nat → List Int → List Nat → List Int) (frame : List Int)
      (radii planes : List Nat),
      (normalize_radius op frame radii planes).length = frame.length) ∧
    (∀ (op : Nat → List Int → List Nat → List Int) (frame : List Int)
      (radii planes : List Nat) (i : Nat) (d : Int),
      planes.contains i = false →
      (normalize_radius op frame radii planes).getD i d = frame.getD i d) ∧
    (∀ (op : Nat → List Int → List Nat → List Int) (frame : List Int)
      (radii planes : List Nat) (i : Nat) (d : Int),
      planes.contains i = true → i < frame.length →
      (normalize_radius op frame radii planes).getD i d =
        (op (radii.getD i 0) frame
          (planes.filter fun k => radii.getD k 0 == radii.getD i 0)).getD i
          (frame.getD i d)) ∧
    (∀ (radii planes : List Nat) (i j : Nat),
      radii.getD i 0 = radii.getD j 0 →
      (planes.filter fun k => radii.getD k 0 == radii.getD i 0) =
        (planes.filter fun k => radii.getD k 0 == radii.getD j 0)) := by
  refine ⟨fun fmt rs passes mode caps => rfl, fun rs => rfl, fun ss len caps => rfl,
    fun rs => rfl, fun rs => rfl, ?_, ?_, ?_, ?_, ?_⟩
  · intro rs mode
    rw [median_blur, if_neg]
    · rfl
    · rintro ⟨h, -⟩
      exact RadiusSpec.noConfusion h
  · intro op frame radii planes
    simp [normalize_radius]
  · intro op frame radii planes i d h
    simp only [normalize_radius, List.getD_eq_getElem?_getD, List.getElem?_mapIdx, h]
    cases frame[i]? <;> simp
  · intro op frame radii planes i d h hi
    simp only [normalize_radius, List.getD_eq_getElem?_getD, List.getElem?_mapIdx, h]
    rw [List.getElem?_eq_getElem hi]
    simp [List.getD_eq_getElem?_getD]
  · intro radii planes i j h
    rw [h]

/-- C4 witness: with per-plane radii `[1, 0, 2]` and planes `{0, 2}` selected,
the unselected plane 1 of a three-plane frame passes through `normalize_radius`
unchanged, and sbr on the list `[1, 2]` is not routed through the normalizer. -/
theorem radius_list_dispatch_witness :
    List.contains [0, 2] 1 = false ∧
    (normalize_radius (fun r f _ => f.map (· + (r : Int))) [10, 20, 30] [1, 0, 2]
      [0, 2]).getD 1 0 = 20 ∧
    (sbr (.perPlane [1, 2])).viaNormalizer = false := by
  refine ⟨by decide, ?_, radius_list_dispatch.2.2.2.2.1 [1, 2]⟩
  rw [radius_list_dispatch.2.2.2.2.2.2.2.1 _ _ _ _ 1 0 (by decide)]
  rfl

/-- C4 counterexample. sbr, one of the six operators the claim covers, does not
hand a list-valued radius to the radius normalizer: the list `[1, 2]` is
forwarded verbatim to the binomial kernel builder. -/
theorem sbr_radius_list_counterexample :
    sbr (.perPlane [1, 2]) = .plan (.perPlane [1, 2]) sbrMergeProg ∧
    (sbr (.perPlane [1, 2])).viaNormalizer = false := by
  exact ⟨rfl, rfl⟩

/-- C7. median_blur with scalar radius 1 and mode HV or SQUARE dispatches to the
direct native 3×3 median primitive; every other radius/mode configuration goes
through the sorting-network expression path; and the direct 3×3 median of a
single 255 spike on a 0 background is 0. -/
theorem median_blur_radius1_dispatch :
    median_blur (.scalar 1) ConvMode.hv = .nativeMedian ∧
    median_blur (.scalar 1) ConvMode.square = .nativeMedian ∧
    (∀ (radius : RadiusSpec) (mode : ConvMode),
      ¬(radius = .scalar 1 ∧ (mode = ConvMode.hv ∨ mode = ConvMode.square)) →
      median_blur radius mode = .sortNetworkExprs (toArr radius)) ∧
    directMedian [255, 0, 0, 0, 0, 0, 0, 0, 0] = 0 := by
  refine ⟨rfl, rfl, ?_, by decide⟩
  intro radius mode h
  rw [median_blur, if_neg h]

/-- C7 witness: radius 2 in HV mode is not the degenerate case and takes the
sorting-network path. -/
theorem median_blur_radius1_dispatch_witness :
    median_blur (.scalar 2) ConvMode.hv = .sortNetworkExprs [2] := by
  exact median_blur_radius1_dispatch.2.2.1 (.scalar 2) ConvMode.hv (by decide)

/-- C8. flux_smooth raises `CustomIndexError` naming flux_smooth and the
offending radius for every radius outside [1, 7], before any backend plan is
built; for every radius inside [1, 7] no error is raised and a backend plan is
produced. -/
theorem flux_smooth_radius_validation :
    ∀ (radius : Int) (threshold : Nat) (sc : Int) (bits : Nat) (planes : List Nat),
      ((radius < 1 ∨ 7 < radius) →
        flux_smooth radius threshold sc bits planes =
          .raised (.customIndexError .fluxSmooth radius)) ∧
      (1 ≤ radius → radius ≤ 7 →
        ∃ p : FluxPlan, flux_smooth radius threshold sc bits planes = .plan p) := by
  intro radius threshold sc bits planes
  constructor
  · intro h
    rw [flux_smooth, if_pos h]
  · intro h1 h2
    rw [flux_smooth, if_neg (by omega)]
    exact ⟨_, rfl⟩

/-- C8 witness: radius 9 raises the error naming flux_smooth and the value 9;
radius 3 raises nothing and yields a plan. -/
theorem flux_smooth_radius_validation_witness :
    flux_smooth 9 7 24 8 [0, 1, 2] = .raised (.customIndexError .fluxSmooth 9) ∧
    ∃ p : FluxPlan, flux_smooth 3 7 24 8 [0, 1, 2] = .plan p := by
  exact ⟨(flux_smooth_radius_validation 9 7 24 8 [0, 1, 2]).1 (by decide),
    (flux_smooth_radius_validation 3 7 24 8 [0, 1, 2]).2 (by decide) (by decide)⟩

/-- C10. For every in-range flux_smooth invocation on a clip of at least 8 bits,
the temporal softener receives the caller's threshold left-shifted by
`bits_per_sample - 8` (that is, multiplied by `2 ^ (bits - 8)`), and a chroma
threshold of 0 whenever neither plane 1 nor plane 2 is selected, the shifted
threshold otherwise. -/
theorem flux_smooth_threshold_scaling :
    ∀ (radius : Int) (threshold : Nat) (sc : Int) (bits : Nat) (planes : List Nat),
      1 ≤ radius → radius ≤ 7 → 8 ≤ bits →
      flux_smooth radius threshold sc bits planes =
        .plan ⟨radius, radius, threshold * 2 ^ (bits - 8),
          if planes.contains 1 || planes.contains 2 then threshold * 2 ^ (bits - 8) else 0,
          sc⟩ := by
  intro radius threshold sc bits planes h1 h2 h3
  rw [flux_smooth, if_neg (by omega)]
  simp [Nat.shiftLeft_eq]

/-- C10 witness: radius 2, threshold 7, a 10-bit clip and only the luma plane
selected give a luma threshold of 7 · 2² = 28 and a chroma threshold of 0;
selecting a chroma plane gives 28 for both. -/
theorem flux_smooth_threshold_scaling_witness :
    flux_smooth 2 7 24 10 [0] = .plan ⟨2, 2, 28, 0, 24⟩ ∧
    flux_smooth 2 7 24 10 [0, 1, 2] = .plan ⟨2, 2, 28, 28, 24⟩ := by
  exact ⟨(flux_smooth_threshold_scaling 2 7 24 10 [0] (by decide) (by decide)
      (by decide)).trans (by decide),
    (flux_smooth_threshold_scaling 2 7 24 10 [0, 1, 2] (by decide) (by decide)
      (by decide)).trans (by decide)⟩

/-- Helper: one successful machine step unfolds `runProg`. -/
theorem runProg_cons_some (env : ExprEnv) (t : ExprTok) (ts : List ExprTok)
    (s s2 : MState) (h : applyTok env s t = some s2) :
    runProg env (t :: ts) s = runProg env ts s2 := by
  simp only [runProg, h]

/-- Helper: pushing a list of values prepends its reverse to the stack. -/
theorem runProg_pushVals (env : ExprEnv) (vs : List Int) (prog : List ExprTok) (s : MState) :
    runProg env (vs.map ExprTok.pushVal ++ prog) s =
      runProg env prog { s with stack := vs.reverse ++ s.stack } := by
  induction vs generalizing s with
  | nil => rfl
  | cons v vt ih =>
    rw [List.map_cons, List.cons_append,
      runProg_cons_some env (ExprTok.pushVal v) (vt.map ExprTok.pushVal ++ prog) s
        { s with stack := v :: s.stack } rfl, ih]
    congr 1
    simp

/-- Helper: sorting the reverse of a list gives the same sorted list. -/
theorem insertionSort_reverse (l : List Int) :
    List.insertionSort (· ≤ ·) l.reverse = List.insertionSort (· ≤ ·) l := by
  exact @List.eq_of_perm_of_sorted Int (fun a b => a ≤ b) inferInstance _ _
    (((List.perm_insertionSort _ _).trans l.reverse_perm).trans
      (List.perm_insertionSort _ l).symm)
    (List.sorted_insertionSort _ _) (List.sorted_insertionSort _ _)

/-- Helper: writing one list position leaves `getD` at any other position
unchanged. -/
theorem getD_set_ne (l : List Int) (i j : Nat) (a : Int) (hij : i ≠ j) :
    (l.set i a).getD j 0 = l.getD j 0 := by
  rw [List.getD_eq_getElem?_getD, List.getElem?_set_ne hij, ← List.getD_eq_getElem?_getD]

/-- Helper: `swapN` preserves the stack length. -/
theorem swapStack_length (l : List Int) (n : Nat) : (swapStack l n).length = l.length := by
  rcases n with _ | n <;> rcases l with _ | ⟨a, rest⟩ <;> simp [swapStack]

/-- Helper: after `swapN` the top of the stack is the old element at depth `n`. -/
theorem swapStack_getD_zero (l : List Int) (n : Nat) :
    (swapStack l n).getD 0 0 = l.getD n 0 := by
  rcases n with _ | n <;> rcases l with _ | ⟨a, rest⟩ <;> simp [swapStack]

/-- Helper: after `swapN` and a pop, depth `n` of the remaining stack holds the
old element at depth `n + 1`. -/
theorem swapStack_tail_getD (l : List Int) (n : Nat) :
    (swapStack l n).tail.getD n 0 = l.getD (n + 1) 0 := by
  rcases n with _ | n
  · rcases l with _ | ⟨a, rest⟩ <;> simp [swapStack]
  · rcases l with _ | ⟨a, rest⟩
    · simp [swapStack]
    · simp [swapStack, getD_set_ne rest n (n + 1) a (Nat.ne_of_lt (Nat.lt_succ_self n))]

/-- Helper: a store on a nonempty stack pops the top into the register. -/
theorem applyTok_store_getD (env : ExprEnv) (r : Reg) (st : List Int) (regs : Regs)
    (h : st ≠ []) :
    applyTok env { stack := st, regs := regs } (.storeReg r) =
      some { stack := st.tail, regs := regs.setReg r (st.getD 0 0) } := by
  rcases st with _ | ⟨a, rest⟩
  · exact absurd rfl h
  · rfl

/-- Helper: the `swap{sp} min! swap{sp} max!` segment of the median program, on
a stack of `2*m + 2` values, stores the values at depths `m` and `m + 1` into
the `min` and `max` registers and leaves `2*m` values on the stack. -/
theorem runProg_select_central (env : ExprEnv) (s : List Int) (m : Nat) (regs : Regs)
    (prog : List ExprTok) (h : s.length = 2 * m + 2) :
    ∃ rest : List Int, rest.length = 2 * m ∧
      runProg env (.swapOp m :: .storeReg .rlo :: .swapOp m :: .storeReg .rhi :: prog)
        { stack := s, regs := regs } =
      runProg env prog
        { stack := rest,
          regs := (regs.setReg .rlo (s.getD m 0)).setReg .rhi (s.getD (m + 1) 0) } := by
  have h1 : m < s.length := by omega
  have hne1 : swapStack s m ≠ [] := by
    rw [← List.length_pos, swapStack_length]
    omega
  have hlt2 : m < (swapStack s m).tail.length := by
    rw [List.length_tail, swapStack_length]
    omega
  have hne2 : swapStack ((swapStack s m).tail) m ≠ [] := by
    rw [← List.length_pos, swapStack_length, List.length_tail, swapStack_length]
    omega
  refine ⟨(swapStack ((swapStack s m).tail) m).tail, ?_, ?_⟩
  · rw [List.length_tail, swapStack_length, List.length_tail, swapStack_length, h]
    omega
  · rw [runProg_cons_some env _ _ _ { stack := swapStack s m, regs := regs } (by
      simp only [applyTok]
      rw [if_pos h1])]
    rw [runProg_cons_some env _ _ _
      { stack := (swapStack s m).tail, regs := regs.setReg .rlo (s.getD m 0) } (by
      rw [applyTok_store_getD env .rlo _ _ hne1, swapStack_getD_zero])]
    rw [runProg_cons_some env _ _ _
      { stack := swapStack ((swapStack s m).tail) m,
        regs := regs.setReg .rlo (s.getD m 0) } (by
      simp only [applyTok]
      rw [if_pos hlt2])]
    rw [runProg_cons_some env _ _ _
      { stack := (swapStack ((swapStack s m).tail) m).tail,
        regs := (regs.setReg .rlo (s.getD m 0)).setReg .rhi (s.getD (m + 1) 0) } (by
      rw [applyTok_store_getD env .rhi _ _ hne2, swapStack_getD_zero, swapStack_tail_getD])]

/-- C6. For every neighborhood of even size `2*m + 2` (as produced by
`ExprOp.matrix` with the center excluded, for every radius/mode configuration
on the sorting-network path) and every original pixel `x`, the compiled
median_blur program evaluates to `x` clipped to the interval bounded by the two
central values of the sorted neighborhood — the values at positions `m` and
`m + 1` of the ascending sort — rather than to the raw median of the
neighborhood. -/
theorem median_prog_clips_central :
    ∀ (x : Int) (ns : List Int) (m : Nat),
      ns.length = 2 * m + 2 →
      evalMedianBlur x ns =
        some (clampPix x ((List.insertionSort (· ≤ ·) ns).getD m 0)
          ((List.insertionSort (· ≤ ·) ns).getD (m + 1) 0)) := by
  intro x ns m h
  simp only [evalMedianBlur, evalProg, medianBlurProg]
  rw [runProg_pushVals]
  simp only [List.append_nil]
  have hst : ns.length + 1 - 1 = ns.length := by omega
  have hsp : (ns.length + 1) / 2 - 1 = m := by omega
  rw [hst, hsp]
  have hdp : ns.length - 2 = 2 * m := by omega
  rw [hdp]
  rw [runProg_cons_some _ _ _ _
    { stack := List.insertionSort (· ≤ ·) ns, regs := Regs.init } (by
    simp only [applyTok]
    rw [← List.length_reverse ns]
    rw [if_pos le_rfl, List.take_length, List.drop_length, List.append_nil,
      insertionSort_reverse])]
  obtain ⟨rest, hrest, heq⟩ := runProg_select_central _ (List.insertionSort (· ≤ ·) ns) m
    Regs.init [.dropOp (2 * m), .pushX, .loadReg .rlo, .loadReg .rhi, .clipOp]
    (by rw [List.length_insertionSort]; exact h)
  rw [heq]
  simp [runProg, applyTok, Regs.getReg, Regs.setReg, hrest]

/-- C6 witness: the neighborhood `[5, 1, 9, 2]` has size 2·1 + 2; its sorted
central pair is (2, 5), and the program clips the original pixel 7 to 5. -/
theorem median_prog_clips_central_witness :
    ([5, 1, 9, 2] : List Int).length = 2 * 1 + 2 ∧
      evalMedianBlur 7 [5, 1, 9, 2] = some 5 := by
  refine ⟨by decide, ?_⟩
  rw [median_prog_clips_central 7 [5, 1, 9, 2] 1 (by decide)]
  decide

end VSRGTools
